import Mathlib

/-!
Shallow embedding of the dapis server's multi-format search engine
(`dapis_server.py`) and proofs about its behaviour.

Modelling conventions:
* The Python `re` module is modelled by an abstract compiler
  `ReCompile : String → Nat → Except String (String → Bool)`: compiling a
  pattern with integer flags either fails (an `re.error`) or yields the
  compiled pattern's `search` function on strings.
* File-system and library I/O (`open`, `openpyxl.load_workbook`,
  `fitz.open`, the external PDF converters) is modelled by a record `FS`
  of functions returning `Except String _`; `.error` stands for the call
  raising an exception.  Reads are modelled as all-or-nothing: a file is
  either delivered whole or the access raises.
* Python machine floats in the PDF handler are modelled as rationals; the
  builtin `round(x, 1)` is modelled exactly (round half to even).
* The per-session SQLite stores and the in-memory `SESSIONS` dict form a
  `ServerState`; inserting with `AUTOINCREMENT` is modelled by giving a new
  row the identifier `rows.length + 1` (the table is append-only, so the
  two agree).
* The `ProcessPoolExecutor` is modelled by a completion schedule
  `sched : List Nat`: workers finish tasks in the order listed by `sched`,
  producing a completion log; `Future.result()` looks a task's entry up in
  that log (`none` = the task never completes, i.e. the caller blocks
  forever, which the endpoint propagates as `none`).
-/

namespace Dapis

/-- Character-list test that `n` is an initial run of `h`. -/
def chStarts : List Char → List Char → Bool
  | [], _ => true
  | _ :: _, [] => false
  | a :: as, b :: bs => a == b && chStarts as bs

/-- Character-list substring containment. -/
def chHasSub (n : List Char) : List Char → Bool
  | [] => chStarts n []
  | c :: t => chStarts n (c :: t) || chHasSub n t

/-- Python's `needle in hay` on strings: substring containment. -/
def strIn (needle hay : String) : Bool :=
  chHasSub needle.toList hay.toList

/-- Accumulator walk computing the segment after the last `.`; this is
Python's `s.split(".")[-1]`. -/
def extAux (cur : List Char) : List Char → List Char
  | [] => cur
  | c :: t => if c == '.' then extAux [] t else extAux (cur ++ [c]) t

/-- `fp.lower().split(".")[-1]` : the lower-cased last extension segment. -/
def extOf (fp : String) : String :=
  ⟨extAux [] (fp.toList.map Char.toLower)⟩

/-- Python's `line.rstrip("\n")`: drop every trailing newline character. -/
def rstripNl (s : String) : String :=
  ⟨(s.toList.reverse.dropWhile (fun c => c == '\n')).reverse⟩

/-- Concatenation of the images of `f`, in list order (`itertools.chain`
over a mapped list); used to state aggregation results. -/
def catMap (f : α → List β) : List α → List β
  | [] => []
  | a :: t => f a ++ catMap f t

/-- Pairs each element with its index counting from `i` (Python
`enumerate(l, start=i)`). -/
def enumFrom (i : Nat) : List α → List (Nat × α)
  | [] => []
  | a :: t => (i, a) :: enumFrom (i + 1) t

/-- One match record as produced by the search functions (a Python dict
with keys path/sheet/line/column/page/value and, for PDFs, x%/y%). -/
structure Match where
  path : String
  sheet : Option String
  line : Option String
  column : Option String
  page : Option String
  value : String
  xPct : Option ℚ
  yPct : Option ℚ
deriving DecidableEq, Repr

/-- A Python exception escaping a worker task: a regex compilation error
(`re.error`) or a converter failure. -/
inductive PyErr where
  | reError (msg : String)
  | convError (msg : String)
deriving DecidableEq, Repr

/-- One word token of `page.get_text("words")` in PyMuPDF:
`(x0, y0, x1, y1, word, block_no, line_no, word_no)`. -/
structure PdfWord where
  x0 : ℚ
  y0 : ℚ
  x1 : ℚ
  y1 : ℚ
  word : String
  blockNo : Nat
  lineNo : Nat
  wordNo : Nat
deriving DecidableEq, Repr

/-- One PDF page: its `rect` extent and its word tokens. -/
structure PdfPage where
  width : ℚ
  height : ℚ
  words : List PdfWord
deriving DecidableEq, Repr

/-- One worksheet: its name and its rows of cells, a cell being `none`
for an empty cell and otherwise the `str()` rendering of its value. -/
structure Sheet where
  name : String
  rows : List (List (Option String))
deriving DecidableEq, Repr

/-- The outside world as seen by the handlers: text reads, workbook
loads, PDF opens, and the two office converters.  `.error` models the
underlying call raising. -/
structure FS where
  textFile : String → Except String (List String)
  workbook : String → Except String (List Sheet)
  pdfDoc : String → Except String (List PdfPage)
  convertWord : String → Except String String
  convertPpt : String → Except String String

/-- Equality of `Except` results is decidable componentwise. -/
instance {ε α : Type} [DecidableEq ε] [DecidableEq α] : DecidableEq (Except ε α) := fun x y =>
  match x, y with
  | .ok a, .ok b =>
    if h : a = b then .isTrue (by rw [h]) else .isFalse (by intro hh; injection hh; contradiction)
  | .error a, .error b =>
    if h : a = b then .isTrue (by rw [h]) else .isFalse (by intro hh; injection hh; contradiction)
  | .ok _, .error _ => .isFalse (by intro hh; injection hh)
  | .error _, .ok _ => .isFalse (by intro hh; injection hh)

/-- The `re.compile` collaborator: pattern and flags to a compiled
search function, or a compilation error. -/
abbrev ReCompile := String → Nat → Except String (String → Bool)

/-- Python's `re.IGNORECASE` flag value. -/
def pyIGNORECASE : Nat := 2

/-- `flags = re.IGNORECASE if ignore_case else 0` in the search endpoint. -/
def searchFlags (ignore_case : Bool) : Nat :=
  if ignore_case then pyIGNORECASE else 0

/-- The dict literal appended per matching line in `search_text_file`. -/
def mkTextMatch (fp : String) (i : Nat) (line : String) : Match :=
  { path := fp, sheet := none, line := some (toString i), column := none,
    page := none, value := rstripNl line, xPct := none, yPct := none }

/-- The `for i, line in enumerate(fh, start=1)` loop body of
`search_text_file`, carrying the running line number. -/
def textLoop (fp : String) (rx : String → Bool) : Nat → List String → List Match
  | _, [] => []
  | i, line :: rest =>
    (if rx line then [mkTextMatch fp i line] else []) ++ textLoop fp rx (i + 1) rest

/-- `search_text_file(fp, pattern, flags)`: compile (outside the `try`),
then read the file line by line; any exception of the read is swallowed. -/
def search_text_file (re_ : ReCompile) (fs : FS) (fp pattern : String)
    (flags : Nat) : Except PyErr (List Match) :=
  match re_ pattern flags with
  | .error e => .error (.reError e)
  | .ok rx =>
    match fs.textFile fp with
    | .error _ => .ok []
    | .ok lines => .ok (textLoop fp rx 1 lines)

/-- `str(cell) if cell is not None else ""`. -/
def cellStr : Option String → String
  | some s => s
  | none => ""

/-- The dict literal appended per matching cell in `search_excel_file`. -/
def mkCellMatch (fp sheetName : String) (i j : Nat) (val : String) : Match :=
  { path := fp, sheet := some sheetName, line := some (toString i),
    column := some (toString j), page := none, value := val,
    xPct := none, yPct := none }

/-- Inner `for j, cell in enumerate(row, start=1)` loop of
`search_excel_file`. -/
def cellLoop (fp sheetName : String) (rx : String → Bool) (i : Nat) :
    Nat → List (Option String) → List Match
  | _, [] => []
  | j, cell :: rest =>
    (if rx (cellStr cell) then [mkCellMatch fp sheetName i j (cellStr cell)] else []) ++
      cellLoop fp sheetName rx i (j + 1) rest

/-- Middle `for i, row in enumerate(ws.iter_rows(...), start=1)` loop. -/
def rowLoop (fp sheetName : String) (rx : String → Bool) :
    Nat → List (List (Option String)) → List Match
  | _, [] => []
  | i, row :: rest =>
    cellLoop fp sheetName rx i 1 row ++ rowLoop fp sheetName rx (i + 1) rest

/-- Outer `for sheet in wb.sheetnames` loop. -/
def sheetLoop (fp : String) (rx : String → Bool) : List Sheet → List Match
  | [] => []
  | sh :: rest => rowLoop fp sh.name rx 1 sh.rows ++ sheetLoop fp rx rest

/-- `search_excel_file(fp, pattern, flags)`: compile outside the `try`,
then walk sheets, rows and cells; any load/iteration exception is
swallowed. -/
def search_excel_file (re_ : ReCompile) (fs : FS) (fp pattern : String)
    (flags : Nat) : Except PyErr (List Match) :=
  match re_ pattern flags with
  | .error e => .error (.reError e)
  | .ok rx =>
    match fs.workbook fp with
    | .error _ => .ok []
    | .ok sheets => .ok (sheetLoop fp rx sheets)

/-- Floor of a rational as an integer (`num.fdiv den`, the denominator
being positive). -/
def ratFloor (x : ℚ) : ℤ := x.num.fdiv x.den

/-- Python's builtin banker's rounding to an integer. -/
def roundHalfEven (x : ℚ) : ℤ :=
  let f := ratFloor x
  let frac := x - (f : ℚ)
  if frac < 1 / 2 then f
  else if 1 / 2 < frac then f + 1
  else if f % 2 = 0 then f else f + 1

/-- Python's `round(x, 1)`. -/
def pyRound1 (x : ℚ) : ℚ := (roundHalfEven (x * 10) : ℚ) / 10

/-- The dict literal appended per matching word in `search_pdf_file`. -/
def mkPdfMatch (al : String) (pageNum : Nat) (pg : PdfPage) (w : PdfWord) : Match :=
  { path := al, sheet := none, line := some (toString w.lineNo),
    column := none, page := some (toString pageNum), value := w.word,
    xPct := some (pyRound1 (w.x0 / pg.width * 100)),
    yPct := some (pyRound1 (w.y0 / pg.height * 100)) }

/-- Inner `for w in words` loop of `search_pdf_file`. -/
def wordLoop (al : String) (rx : String → Bool) (pageNum : Nat)
    (pg : PdfPage) : List PdfWord → List Match
  | [] => []
  | w :: rest =>
    (if rx w.word then [mkPdfMatch al pageNum pg w] else []) ++
      wordLoop al rx pageNum pg rest

/-- Outer `for page_num, page in enumerate(doc, start=1)` loop. -/
def pageLoop (al : String) (rx : String → Bool) :
    Nat → List PdfPage → List Match
  | _, [] => []
  | n, pg :: rest => wordLoop al rx n pg pg.words ++ pageLoop al rx (n + 1) rest

/-- `search_pdf_file(fp, pattern, flags, fp_alias=None)`: compile outside
the `try`, default the alias to `fp`, open the document and walk pages and
word tokens; any open/iteration exception is swallowed.  (Zero-size pages,
where Python would raise `ZeroDivisionError` inside the swallowed region,
are outside the model: rational division by zero yields 0.) -/
def search_pdf_file (re_ : ReCompile) (fs : FS) (fp pattern : String)
    (flags : Nat) (fpAlias : Option String) : Except PyErr (List Match) :=
  match re_ pattern flags with
  | .error e => .error (.reError e)
  | .ok rx =>
    match fs.pdfDoc fp with
    | .error _ => .ok []
    | .ok pages => .ok (pageLoop (fpAlias.getD fp) rx 1 pages)

/-- The format variants distinguished by `search_file`'s branch chain. -/
inductive FileFormat where
  | text
  | spreadsheet
  | pdf
  | docWord
  | docPpt
  | unsupported
deriving DecidableEq, Repr

/-- The branch chain of `search_file` on `ext = fp.lower().split(".")[-1]`.
Note `ext in ("docx")` and `ext in ("pptx")` in the source are containment
tests on the *string* `"docx"` / `"pptx"` (the parentheses do not make a
tuple), i.e. substring tests, modelled by `strIn`. -/
def classify (fp : String) : FileFormat :=
  let ext := extOf fp
  if ext = "xlsx" ∨ ext = "xlsm" ∨ ext = "xls" then .spreadsheet
  else if strIn ext "docx" then .docWord
  else if strIn ext "pptx" then .docPpt
  else if ext = "pdf" then .pdf
  else if ext = "txt" ∨ ext = "py" ∨ ext = "md" ∨ ext = "csv" then .text
  else .unsupported

/-- `search_file(fp, pattern, flags)`: dispatch on the extension.  The
converters are called outside any `try`, so their failures propagate. -/
def search_file (re_ : ReCompile) (fs : FS) (fp pattern : String)
    (flags : Nat) : Except PyErr (List Match) :=
  match classify fp with
  | .spreadsheet => search_excel_file re_ fs fp pattern flags
  | .docWord =>
    match fs.convertWord fp with
    | .error e => .error (.convError e)
    | .ok pdfFp => search_pdf_file re_ fs pdfFp pattern flags (some fp)
  | .docPpt =>
    match fs.convertPpt fp with
    | .error e => .error (.convError e)
    | .ok pdfFp => search_pdf_file re_ fs pdfFp pattern flags (some fp)
  | .pdf => search_pdf_file re_ fs fp pattern flags none
  | .text => search_text_file re_ fs fp pattern flags
  | .unsupported => .ok []

/-- One row of a session's `results` table. -/
structure Row where
  id : Nat
  query : String
  file_path : String
  sheet : Option String
  line : Option String
  column : Option String
  page : Option String
  value : String
deriving DecidableEq, Repr

/-- First-match association-list lookup (a Python dict read, and the
row set of one session's SQLite file among the files of `results_dir`). -/
def lookupA : List (String × α) → String → Option α
  | [], _ => none
  | p :: t, k => if p.1 == k then some p.2 else lookupA t k

/-- Replace the value stored under `k` (no-op when `k` is absent). -/
def updateA : List (String × α) → String → α → List (String × α)
  | [], _, _ => []
  | p :: t, k, v => if p.1 == k then (k, v) :: updateA t k v else p :: updateA t k v

/-- The server's shared state: the `SESSIONS` dict and the per-session
SQLite stores. -/
structure ServerState where
  sessions : List (String × List String)
  stores : List (String × List Row)
deriving DecidableEq, Repr

/-- The rows currently in `sid`'s results table (empty when the store
does not exist yet). -/
def storeRows (st : ServerState) (sid : String) : List Row :=
  (lookupA st.stores sid).getD []

/-- `init_db(session_id)`: `CREATE TABLE IF NOT EXISTS` — create an empty
store when none exists, otherwise leave the existing one. -/
def init_db (st : ServerState) (sid : String) : ServerState :=
  match lookupA st.stores sid with
  | some _ => st
  | none => { st with stores := st.stores ++ [(sid, [])] }

/-- The row `save_result` inserts for a match, with the next
`AUTOINCREMENT` identifier. -/
def rowOfMatch (nextId : Nat) (query : String) (m : Match) : Row :=
  { id := nextId, query := query, file_path := m.path, sheet := m.sheet,
    line := m.line, column := m.column, page := m.page, value := m.value }

/-- `save_result(conn, query, ...)`: one `INSERT` into the session's
table. -/
def save_result (st : ServerState) (sid query : String) (m : Match) : ServerState :=
  let rows := storeRows st sid
  { st with stores := updateA st.stores sid (rows ++ [rowOfMatch (rows.length + 1) query m]) }

/-- The `for r in results: save_result(...)` loop of the search endpoint. -/
def saveAll (st : ServerState) (sid query : String) : List Match → ServerState
  | [] => st
  | m :: t => saveAll (save_result st sid query m) sid query t

/-- The worker pool's completion log: workers finish the submitted tasks
in the order given by `sched`, each completion recording the task's index
and its (deterministic) outcome.  Indices in `sched` beyond the task list
are ignored. -/
def mkLog (tasks : List (Except PyErr (List Match))) :
    List Nat → List (Nat × Except PyErr (List Match))
  | [] => []
  | i :: rest =>
    match tasks.get? i with
    | none => mkLog tasks rest
    | some r => (i, r) :: mkLog tasks rest

/-- `Future.result()` for task `i`: its completion-log entry, `none`
meaning the caller blocks forever. -/
def futureResult : List (Nat × Except PyErr (List Match)) → Nat →
    Option (Except PyErr (List Match))
  | [], _ => none
  | p :: t, i => if p.1 == i then some p.2 else futureResult t i

/-- The `for f in futures: results.extend(f.result())` loop, walking the
futures in submission order; the first raising `result()` call aborts the
loop with that exception, and a never-completing task blocks (`none`). -/
def collectFrom (log : List (Nat × Except PyErr (List Match))) :
    List Nat → Option (Except PyErr (List Match))
  | [] => some (.ok [])
  | i :: rest =>
    match futureResult log i with
    | none => none
    | some (.error e) => some (.error e)
    | some (.ok ms) =>
      match collectFrom log rest with
      | none => none
      | some (.error e) => some (.error e)
      | some (.ok tail) => some (.ok (ms ++ tail))

/-- What the `/search` endpoint replies. -/
inductive SearchResp where
  | unknownSession
  | taskError (e : PyErr)
  | matches (ms : List Match)
deriving DecidableEq, Repr

/-- Reply, post-state and the tasks submitted to the pool for one
`/search` request. -/
structure SearchOutcome where
  resp : SearchResp
  state : ServerState
  submitted : List (Except PyErr (List Match))
deriving DecidableEq, Repr

/-- The `/search` endpoint (`search` in the source): unknown-session
check, lazy store creation, one `search_file` task per target submitted to
the pool, collection in submission order, then one `save_result` per
match.  `sched` is the workers' completion order; `none` models the
request blocking forever on a never-completing task. -/
def search (re_ : ReCompile) (fs : FS) (sched : List Nat) (st : ServerState)
    (sid pattern : String) (ignore_case : Bool) : Option SearchOutcome :=
  match lookupA st.sessions sid with
  | none => some { resp := .unknownSession, state := st, submitted := [] }
  | some paths =>
    let st1 := init_db st sid
    let flags := searchFlags ignore_case
    let tasks := paths.map (fun fp => search_file re_ fs fp pattern flags)
    match collectFrom (mkLog tasks sched) (List.range paths.length) with
    | none => none
    | some (.error e) => some { resp := .taskError e, state := st1, submitted := tasks }
    | some (.ok results) =>
      some { resp := .matches results, state := saveAll st1 sid pattern results,
             submitted := tasks }

/-- The `/get_targets` endpoint: the first `maxCount` paths, plus a
synthetic "...and N more" entry when the session holds more. -/
def get_targets (st : ServerState) (sid : String) (maxCount : Nat) :
    Except String (List String) :=
  match lookupA st.sessions sid with
  | none => .error "unknown session_id"
  | some paths =>
    let displayed := paths.take maxCount
    if paths.length > maxCount then
      .ok (displayed ++ ["...and " ++ toString (paths.length - maxCount) ++ " more"])
    else
      .ok displayed

/-- The match list a completed task contributes (`[]` for an exception
that never reaches the collection loop). -/
def okOf : Except PyErr (List Match) → List Match
  | .ok ms => ms
  | .error _ => []

/-- The rows appended for a query's match list when the table already
holds `base` rows: identifiers continue from `base + 1`. -/
def mkRows (base : Nat) (q : String) : List Match → List Row
  | [] => []
  | m :: t => rowOfMatch (base + 1) q m :: mkRows (base + 1) q t

/-- A concrete regex collaborator for witnesses: every pattern compiles,
to a substring matcher. -/
def reA : ReCompile := fun p _ => .ok (fun s => strIn p s)

/-- A concrete regex collaborator whose compilation always fails (a
syntactically invalid pattern). -/
def reBad : ReCompile := fun _ _ => .error "bad pattern"

/-- A file system where every access raises. -/
def fsErr : FS :=
  { textFile := fun _ => .error "io", workbook := fun _ => .error "io",
    pdfDoc := fun _ => .error "io", convertWord := fun _ => .error "io",
    convertPpt := fun _ => .error "io" }

/-- Witness workbook: one sheet with a matching cell at row 2, column 2
and one at row 3, column 2. -/
def wbA : List Sheet :=
  [{ name := "Sheet1",
     rows := [[some "a", none], [some "b", some "hit"], [none, some "hit2"]] }]

/-- Witness PDF: one 200×100 page with a matching word at the origin and
one at x0 = 100. -/
def pagesA : List PdfPage :=
  [{ width := 200, height := 100,
     words := [{ x0 := 0, y0 := 0, x1 := 10, y1 := 10, word := "hit",
                 blockNo := 0, lineNo := 3, wordNo := 0 },
               { x0 := 100, y0 := 50, x1 := 110, y1 := 60, word := "hit2",
                 blockNo := 0, lineNo := 4, wordNo := 1 }] }]

/-- A concrete file system serving one text file, one workbook and one
PDF; everything else (converters included) raises. -/
def fsA : FS :=
  { textFile := fun fp =>
      if fp = "a.txt" then .ok ["one\n", "hit two\n", "three\n", "hit\n"]
      else .error "io",
    workbook := fun fp => if fp = "b.xlsx" then .ok wbA else .error "io",
    pdfDoc := fun fp => if fp = "c.pdf" then .ok pagesA else .error "io",
    convertWord := fun _ => .error "conv",
    convertPpt := fun _ => .error "conv" }

theorem catMap_congr {f g : α → List β} :
    ∀ {l : List α}, (∀ x ∈ l, f x = g x) → catMap f l = catMap g l
  | [], _ => rfl
  | a :: t, h => by
    simp only [catMap, h a (List.mem_cons_self a t)]
    rw [catMap_congr (fun x hx => h x (List.mem_cons_of_mem a hx))]

theorem catMap_map {f : β → List γ} {g : α → β} :
    ∀ (l : List α), catMap f (l.map g) = catMap (fun a => f (g a)) l
  | [] => rfl
  | a :: t => by simp only [List.map_cons, catMap, catMap_map t]

theorem catMap_range_getD {l : List α} {d : α} {f : α → List β} :
    catMap (fun i => f (l.getD i d)) (List.range l.length) = catMap f l := by
  induction l with
  | nil => rfl
  | cons a t ih =>
    rw [List.length_cons, List.range_succ_eq_map, catMap]
    simp only [List.getD_cons_zero]
    rw [catMap_map]
    simp only [List.getD_cons_succ]
    rw [ih]
    rfl

theorem textLoop_eq (fp : String) (rx : String → Bool) :
    ∀ (i : Nat) (lines : List String),
      textLoop fp rx i lines =
        (enumFrom i lines).filterMap
          (fun p => if rx p.2 then some (mkTextMatch fp p.1 p.2) else none) := by
  intro i lines
  induction lines generalizing i with
  | nil => rfl
  | cons line rest ih =>
    simp only [textLoop, enumFrom, List.filterMap_cons]
    cases h : rx line <;> simp [h, ih]

theorem cellLoop_eq (fp nm : String) (rx : String → Bool) (i : Nat) :
    ∀ (j : Nat) (cells : List (Option String)),
      cellLoop fp nm rx i j cells =
        (enumFrom j cells).filterMap
          (fun c => if rx (cellStr c.2) then
            some (mkCellMatch fp nm i c.1 (cellStr c.2)) else none) := by
  intro j cells
  induction cells generalizing j with
  | nil => rfl
  | cons cell rest ih =>
    simp only [cellLoop, enumFrom, List.filterMap_cons]
    cases h : rx (cellStr cell) <;> simp [h, ih]

theorem rowLoop_eq (fp nm : String) (rx : String → Bool) :
    ∀ (i : Nat) (rows : List (List (Option String))),
      rowLoop fp nm rx i rows =
        catMap (fun r => (enumFrom 1 r.2).filterMap
          (fun c => if rx (cellStr c.2) then
            some (mkCellMatch fp nm r.1 c.1 (cellStr c.2)) else none))
          (enumFrom i rows) := by
  intro i rows
  induction rows generalizing i with
  | nil => rfl
  | cons row rest ih =>
    simp only [rowLoop, enumFrom, catMap, cellLoop_eq, ih]

theorem sheetLoop_eq (fp : String) (rx : String → Bool) :
    ∀ (sheets : List Sheet),
      sheetLoop fp rx sheets =
        catMap (fun sh => catMap (fun r => (enumFrom 1 r.2).filterMap
          (fun c => if rx (cellStr c.2) then
            some (mkCellMatch fp sh.name r.1 c.1 (cellStr c.2)) else none))
          (enumFrom 1 sh.rows)) sheets := by
  intro sheets
  induction sheets with
  | nil => rfl
  | cons sh rest ih =>
    simp only [sheetLoop, catMap, rowLoop_eq, ih]

theorem wordLoop_eq (al : String) (rx : String → Bool) (n : Nat) (pg : PdfPage) :
    ∀ (ws : List PdfWord),
      wordLoop al rx n pg ws =
        ws.filterMap (fun w => if rx w.word then some (mkPdfMatch al n pg w) else none) := by
  intro ws
  induction ws with
  | nil => rfl
  | cons w rest ih =>
    simp only [wordLoop, List.filterMap_cons]
    cases h : rx w.word <;> simp [h, ih]

theorem pageLoop_eq (al : String) (rx : String → Bool) :
    ∀ (n : Nat) (pages : List PdfPage),
      pageLoop al rx n pages =
        catMap (fun pp => pp.2.words.filterMap
          (fun w => if rx w.word then some (mkPdfMatch al pp.1 pp.2 w) else none))
          (enumFrom n pages) := by
  intro n pages
  induction pages generalizing n with
  | nil => rfl
  | cons pg rest ih =>
    simp only [pageLoop, enumFrom, catMap, wordLoop_eq, ih]

theorem getD_of_getQ {l : List α} {i : Nat} {r d : α} (h : l.get? i = some r) :
    l.getD i d = r := by
  simp [List.getD_eq_getElem?_getD, ← List.get?_eq_getElem?, h]

theorem getQ_ne_none {l : List α} {i : Nat} (h : i < l.length) : l.get? i ≠ none := by
  simp [List.get?_eq_getElem?, List.getElem?_eq_none_iff]
  omega

theorem futureResult_mkLog {tasks : List (Except PyErr (List Match))} :
    ∀ {sched : List Nat} {i : Nat} {r},
      futureResult (mkLog tasks sched) i = some r → tasks.get? i = some r := by
  intro sched
  induction sched with
  | nil => intro i r h; simp [mkLog, futureResult] at h
  | cons j rest ih =>
    intro i r h
    rw [mkLog] at h
    cases hj : tasks.get? j with
    | none => rw [hj] at h; exact ih h
    | some rj =>
      rw [hj] at h
      simp only [futureResult] at h
      by_cases hji : j = i
      · subst hji
        simp only [beq_self_eq_true, if_true] at h
        cases h
        exact hj
      · have hb : (j == i) = false := by simp [hji]
        rw [hb] at h
        simp only [Bool.false_eq_true, if_false] at h
        exact ih h

theorem futureResult_mkLog_of_mem {tasks : List (Except PyErr (List Match))} :
    ∀ {sched : List Nat} {i : Nat}, i ∈ sched → i < tasks.length →
      futureResult (mkLog tasks sched) i = some (tasks.getD i (.ok [])) := by
  intro sched
  induction sched with
  | nil => intro i h _; cases h
  | cons j rest ih =>
    intro i hmem hlt
    rw [mkLog]
    by_cases hji : j = i
    · subst hji
      have hj : tasks.get? j = some (tasks.getD j (.ok [])) := by
        have hne : tasks.get? j ≠ none := getQ_ne_none hlt
        cases hg : tasks.get? j with
        | none => exact absurd hg hne
        | some r => rw [getD_of_getQ hg]
      rw [hj]
      simp [futureResult]
    · have hmem' : i ∈ rest := by
        cases hmem with
        | head => exact absurd rfl hji
        | tail _ h => exact h
      cases hj : tasks.get? j with
      | none => exact ih hmem' hlt
      | some rj =>
        simp only [futureResult]
        have hb : (j == i) = false := by simp [hji]
        rw [hb]
        simp only [Bool.false_eq_true, if_false]
        exact ih hmem' hlt

theorem collectFrom_ok {tasks : List (Except PyErr (List Match))} {sched : List Nat} :
    ∀ {ixs : List Nat} {ms},
      collectFrom (mkLog tasks sched) ixs = some (.ok ms) →
        ms = catMap (fun i => okOf (tasks.getD i (.ok []))) ixs := by
  intro ixs
  induction ixs with
  | nil => intro ms h; cases h; rfl
  | cons i rest ih =>
    intro ms h
    rw [collectFrom] at h
    cases hf : futureResult (mkLog tasks sched) i with
    | none => rw [hf] at h; cases h
    | some r =>
      rw [hf] at h
      cases r with
      | error e => cases h
      | ok msi =>
        cases ht : collectFrom (mkLog tasks sched) rest with
        | none => rw [ht] at h; cases h
        | some rt =>
          rw [ht] at h
          cases rt with
          | error e => cases h
          | ok tail =>
            cases h
            have hget := futureResult_mkLog hf
            have hd : tasks.getD i (.ok []) = .ok msi := getD_of_getQ hget
            rw [catMap, hd, ← ih ht]
            rfl

theorem collectFrom_complete {tasks : List (Except PyErr (List Match))} {sched : List Nat} :
    ∀ {ixs : List Nat},
      (∀ i ∈ ixs, i ∈ sched ∧ i < tasks.length) →
      (∀ i ∈ ixs, ∃ msi, tasks.getD i (.ok []) = .ok msi) →
      collectFrom (mkLog tasks sched) ixs =
        some (.ok (catMap (fun i => okOf (tasks.getD i (.ok []))) ixs)) := by
  intro ixs
  induction ixs with
  | nil => intro _ _; rfl
  | cons i rest ih =>
    intro hix hok
    obtain ⟨hsched, hlt⟩ := hix i (List.mem_cons_self i rest)
    obtain ⟨msi, hmsi⟩ := hok i (List.mem_cons_self i rest)
    rw [collectFrom, futureResult_mkLog_of_mem hsched hlt, hmsi]
    rw [ih (fun x hx => hix x (List.mem_cons_of_mem i hx))
        (fun x hx => hok x (List.mem_cons_of_mem i hx))]
    rw [catMap, hmsi]
    rfl

theorem collectFrom_all_ok {tasks : List (Except PyErr (List Match))} {sched : List Nat} :
    ∀ {ixs : List Nat} {ms},
      collectFrom (mkLog tasks sched) ixs = some (.ok ms) →
      ∀ i ∈ ixs, ∃ msi, tasks.get? i = some (.ok msi) := by
  intro ixs
  induction ixs with
  | nil => intro ms _ i h; cases h
  | cons j rest ih =>
    intro ms h i hi
    rw [collectFrom] at h
    cases hf : futureResult (mkLog tasks sched) j with
    | none => rw [hf] at h; cases h
    | some r =>
      rw [hf] at h
      cases r with
      | error e => cases h
      | ok msj =>
        cases ht : collectFrom (mkLog tasks sched) rest with
        | none => rw [ht] at h; cases h
        | some rt =>
          rw [ht] at h
          cases rt with
          | error e => cases h
          | ok tail =>
            cases hi with
            | head => exact ⟨msj, futureResult_mkLog hf⟩
            | tail _ hrest => exact ih ht i hrest

theorem lookupA_append_none {l : List (String × α)} {k : String}
    (h : lookupA l k = none) (v : α) : lookupA (l ++ [(k, v)]) k = some v := by
  induction l with
  | nil => simp [lookupA]
  | cons p t ih =>
    rw [lookupA] at h
    rw [List.cons_append, lookupA]
    cases hpk : p.1 == k with
    | true => rw [hpk] at h; simp at h
    | false =>
      rw [hpk] at h
      simp only [Bool.false_eq_true, if_false] at h ⊢
      exact ih h

theorem lookupA_updateA {l : List (String × α)} {k : String} {v : α} :
    lookupA (updateA l k v) k = (lookupA l k).map (fun _ => v) := by
  induction l with
  | nil => rfl
  | cons p t ih =>
    rw [updateA, lookupA]
    cases hpk : p.1 == k with
    | true => simp [lookupA, hpk]
    | false =>
      simp only [Bool.false_eq_true, if_false]
      rw [lookupA, hpk]
      simp only [Bool.false_eq_true, if_false]
      exact ih

theorem save_result_sessions (st : ServerState) (sid q : String) (m : Match) :
    (save_result st sid q m).sessions = st.sessions := rfl

theorem saveAll_sessions (sid q : String) :
    ∀ (ms : List Match) (st : ServerState),
      (saveAll st sid q ms).sessions = st.sessions
  | [], _ => rfl
  | m :: t, st => by
    rw [saveAll, saveAll_sessions sid q t]
    rfl

theorem init_db_sessions (st : ServerState) (sid : String) :
    (init_db st sid).sessions = st.sessions := by
  cases h : lookupA st.stores sid with
  | some v => simp [init_db, h]
  | none => simp [init_db, h]

theorem init_db_isSome (st : ServerState) (sid : String) :
    (lookupA (init_db st sid).stores sid).isSome := by
  cases h : lookupA st.stores sid with
  | some v => simp [init_db, h]
  | none => simp [init_db, h, lookupA_append_none h]

theorem storeRows_init_db (st : ServerState) (sid : String) :
    storeRows (init_db st sid) sid = storeRows st sid := by
  cases h : lookupA st.stores sid with
  | some v => simp [init_db, h]
  | none => simp [storeRows, init_db, h, lookupA_append_none h]

theorem save_result_isSome {st : ServerState} {sid : String} (q : String) (m : Match)
    (h : (lookupA st.stores sid).isSome) :
    (lookupA (save_result st sid q m).stores sid).isSome := by
  obtain ⟨v, hv⟩ := Option.isSome_iff_exists.mp h
  simp [save_result, lookupA_updateA, hv]

theorem storeRows_save {st : ServerState} {sid : String} (q : String) (m : Match)
    (h : (lookupA st.stores sid).isSome) :
    storeRows (save_result st sid q m) sid =
      storeRows st sid ++ [rowOfMatch ((storeRows st sid).length + 1) q m] := by
  obtain ⟨v, hv⟩ := Option.isSome_iff_exists.mp h
  simp [storeRows, save_result, lookupA_updateA, hv]

theorem mkRows_length (q : String) : ∀ (base : Nat) (ms : List Match),
    (mkRows base q ms).length = ms.length
  | _, [] => rfl
  | base, m :: t => by
    rw [mkRows, List.length_cons, mkRows_length q (base + 1) t, List.length_cons]

theorem saveAll_rows (sid q : String) :
    ∀ (ms : List Match) (st : ServerState), (lookupA st.stores sid).isSome →
      storeRows (saveAll st sid q ms) sid =
        storeRows st sid ++ mkRows (storeRows st sid).length q ms
  | [], st, _ => by simp [saveAll, mkRows]
  | m :: t, st, h => by
    rw [saveAll, saveAll_rows sid q t _ (save_result_isSome q m h), storeRows_save q m h]
    rw [List.length_append, mkRows, List.append_assoc]
    simp

theorem saveAll_isSome (sid q : String) :
    ∀ (ms : List Match) (st : ServerState), (lookupA st.stores sid).isSome →
      (lookupA (saveAll st sid q ms).stores sid).isSome
  | [], _, h => h
  | m :: t, st, h => saveAll_isSome sid q t _ (save_result_isSome q m h)

theorem init_db_of_isSome {st : ServerState} {sid : String}
    (h : (lookupA st.stores sid).isSome) : init_db st sid = st := by
  obtain ⟨v, hv⟩ := Option.isSome_iff_exists.mp h
  simp [init_db, hv]

theorem tasks_getD {paths : List String} {g : String → Except PyErr (List Match)}
    {i : Nat} (hi : i < paths.length) :
    ∃ fp ∈ paths, (paths.map g).getD i (.ok []) = g fp := by
  cases hg : paths.get? i with
  | none => exact absurd hg (getQ_ne_none hi)
  | some fp =>
    refine ⟨fp, List.get?_mem hg, ?_⟩
    have hm : (paths.map g).get? i = some (g fp) := by rw [List.get?_map, hg]; rfl
    exact getD_of_getQ hm

theorem search_known {st : ServerState} {sid : String} {paths : List String}
    (re_ : ReCompile) (fs : FS) (sched : List Nat) (pattern : String) (ic : Bool)
    (hp : lookupA st.sessions sid = some paths) :
    search re_ fs sched st sid pattern ic =
      (match collectFrom
          (mkLog (paths.map (fun fp => search_file re_ fs fp pattern (searchFlags ic))) sched)
          (List.range paths.length) with
      | none => none
      | some (.error e) =>
        some { resp := .taskError e, state := init_db st sid,
               submitted := paths.map (fun fp => search_file re_ fs fp pattern (searchFlags ic)) }
      | some (.ok results) =>
        some { resp := .matches results,
               state := saveAll (init_db st sid) sid pattern results,
               submitted := paths.map (fun fp => search_file re_ fs fp pattern (searchFlags ic)) }) := by
  unfold search
  rw [hp]

theorem search_matches {re_ : ReCompile} {fs : FS} {sched : List Nat}
    {st : ServerState} {sid pattern : String} {ic : Bool} {paths : List String}
    {o : SearchOutcome} {ms : List Match}
    (hp : lookupA st.sessions sid = some paths)
    (h : search re_ fs sched st sid pattern ic = some o)
    (hr : o.resp = .matches ms) :
    ms = catMap (fun fp => okOf (search_file re_ fs fp pattern (searchFlags ic))) paths ∧
    o.state = saveAll (init_db st sid) sid pattern ms := by
  rw [search_known re_ fs sched pattern ic hp] at h
  cases hc : collectFrom
      (mkLog (paths.map (fun fp => search_file re_ fs fp pattern (searchFlags ic))) sched)
      (List.range paths.length) with
  | none => rw [hc] at h; cases h
  | some r =>
    rw [hc] at h
    cases r with
    | error e =>
      cases h
      cases hr
    | ok results =>
      cases h
      cases hr
      have hcanon := collectFrom_ok hc
      constructor
      · rw [hcanon]
        have hlen : (paths.map (fun fp => search_file re_ fs fp pattern (searchFlags ic))).length
            = paths.length := List.length_map _ _
        rw [← hlen, catMap_range_getD, catMap_map]
      · rfl

/-- C4: for a registered session with N submitted paths and display limit
L, `get_targets` returns the first min(N, L) paths verbatim; when N ≤ L it
returns exactly those N paths and nothing else, and when N > L it returns
the first L paths followed by exactly one synthetic "...and (N−L) more"
entry. -/
theorem c4_get_targets (st : ServerState) (sid : String) (paths : List String)
    (L : Nat) (hp : lookupA st.sessions sid = some paths) :
    (paths.length ≤ L → get_targets st sid L = .ok paths) ∧
    (L < paths.length →
      get_targets st sid L =
        .ok (paths.take L ++ ["...and " ++ toString (paths.length - L) ++ " more"])) := by
  constructor
  · intro hle
    unfold get_targets
    rw [hp]
    have hgt : ¬ paths.length > L := by omega
    simp [hgt, List.take_of_length_le hle]
  · intro hlt
    unfold get_targets
    rw [hp]
    have hgt : paths.length > L := hlt
    simp [hgt]

/-- Witness for C4: both branches at a concrete three-path session. -/
theorem c4_get_targets_witness :
    get_targets ⟨[("s", ["a", "b", "c"])], []⟩ "s" 2 = .ok ["a", "b", "...and 1 more"] ∧
    get_targets ⟨[("s", ["a", "b", "c"])], []⟩ "s" 3 = .ok ["a", "b", "c"] := by
  constructor
  · rw [(c4_get_targets ⟨[("s", ["a", "b", "c"])], []⟩ "s" ["a", "b", "c"] 2 rfl).2
      (by decide)]
    rfl
  · rw [(c4_get_targets ⟨[("s", ["a", "b", "c"])], []⟩ "s" ["a", "b", "c"] 3 rfl).1
      (by decide)]

/-- C8: querying an unregistered session identifier yields the
unknown-session error, leaves the whole server state untouched (so the
session's store is neither created nor written) and submits no extraction
task to the pool. -/
theorem c8_unknown_session (re_ : ReCompile) (fs : FS) (sched : List Nat)
    (st : ServerState) (sid pattern : String) (ic : Bool)
    (h : lookupA st.sessions sid = none) :
    search re_ fs sched st sid pattern ic =
      some { resp := .unknownSession, state := st, submitted := [] } := by
  unfold search
  rw [h]

/-- Witness for C8: a concrete unregistered session. -/
theorem c8_unknown_session_witness :
    search reA fsA [] ⟨[("s", ["a.txt"])], []⟩ "nope" "p" false =
      some { resp := .unknownSession, state := ⟨[("s", ["a.txt"])], []⟩,
             submitted := [] } :=
  c8_unknown_session reA fsA [] ⟨[("s", ["a.txt"])], []⟩ "nope" "p" false rfl

/-- C1 (code bug): `ext in ("docx")` and `ext in ("pptx")` in
`search_file` are substring tests on a string, not tuple membership, so
extensions outside the claimed mapping — here "x", "doc", "pt" and the
empty extension — are classified as convertible documents and do invoke
the conversion handler (whose failure then propagates), instead of
yielding zero matches without invoking any handler.  Extensions that are
not substrings of "docx"/"pptx" behave as claimed. -/
theorem c1_classifier_eval :
    classify "a.x" = FileFormat.docWord ∧
    classify "a.doc" = FileFormat.docWord ∧
    classify "a.pt" = FileFormat.docPpt ∧
    classify "a." = FileFormat.docWord ∧
    search_file reA fsErr "a.x" "p" 0 = .error (.convError "io") ∧
    classify "a.txt" = FileFormat.text ∧
    classify "A.PDF" = FileFormat.pdf ∧
    classify "b.XLSX" = FileFormat.spreadsheet ∧
    classify "a.gz" = FileFormat.unsupported ∧
    search_file reA fsErr "a.gz" "p" 0 = .ok [] := by
  decide

/-- C2: with a pattern that compiles, an internal failure of the text,
spreadsheet or PDF extraction is swallowed, the handler returning `.ok []`
with no error signal; a failure of the document-to-PDF conversion step for
a convertible document propagates as an error. -/
theorem c2_swallow_vs_propagate (re_ : ReCompile) (fs : FS) (pattern : String)
    (flags : Nat) (rx : String → Bool) (hc : re_ pattern flags = .ok rx) :
    (∀ fp e, fs.textFile fp = .error e →
      search_text_file re_ fs fp pattern flags = .ok []) ∧
    (∀ fp e, fs.workbook fp = .error e →
      search_excel_file re_ fs fp pattern flags = .ok []) ∧
    (∀ fp e al, fs.pdfDoc fp = .error e →
      search_pdf_file re_ fs fp pattern flags al = .ok []) ∧
    (∀ fp e, classify fp = .docWord → fs.convertWord fp = .error e →
      search_file re_ fs fp pattern flags = .error (.convError e)) ∧
    (∀ fp e, classify fp = .docPpt → fs.convertPpt fp = .error e →
      search_file re_ fs fp pattern flags = .error (.convError e)) := by
  refine ⟨?_, ?_, ?_, ?_, ?_⟩
  · intro fp e he
    unfold search_text_file
    rw [hc, he]
  · intro fp e he
    unfold search_excel_file
    rw [hc, he]
  · intro fp e al he
    unfold search_pdf_file
    rw [hc, he]
  · intro fp e hcl he
    unfold search_file
    rw [hcl, he]
  · intro fp e hcl he
    unfold search_file
    rw [hcl, he]

/-- Witness for C2: every read raising on concrete files, and failing
conversions for a `.docx` and a `.pptx` target. -/
theorem c2_swallow_vs_propagate_witness :
    search_text_file reA fsErr "a.txt" "p" 0 = .ok [] ∧
    search_excel_file reA fsErr "b.xlsx" "p" 0 = .ok [] ∧
    search_pdf_file reA fsErr "c.pdf" "p" 0 none = .ok [] ∧
    search_file reA fsErr "a.docx" "p" 0 = .error (.convError "io") ∧
    search_file reA fsErr "a.pptx" "p" 0 = .error (.convError "io") := by
  have h := c2_swallow_vs_propagate reA fsErr "p" 0 (fun s => strIn "p" s) rfl
  exact ⟨h.1 "a.txt" "io" rfl, h.2.1 "b.xlsx" "io" rfl,
    h.2.2.1 "c.pdf" "io" none rfl,
    h.2.2.2.1 "a.docx" "io" (by decide) rfl,
    h.2.2.2.2 "a.pptx" "io" (by decide) rfl⟩

/-- C5: on a readable text file the handler yields exactly one match per
line the compiled pattern matches, with the 1-based line number in file
order, `sheet`/`column`/`page` null and the line's trailing newline
stripped from `value`; and the endpoint turns the case-insensitive flag
into `re.IGNORECASE` exactly when it is set. -/
theorem c5_text_handler (re_ : ReCompile) (fs : FS) (fp pattern : String)
    (flags : Nat) (rx : String → Bool) (lines : List String)
    (hc : re_ pattern flags = .ok rx) (hf : fs.textFile fp = .ok lines) :
    search_text_file re_ fs fp pattern flags =
      .ok ((enumFrom 1 lines).filterMap (fun p =>
        if rx p.2 then
          some { path := fp, sheet := none, line := some (toString p.1),
                 column := none, page := none, value := rstripNl p.2,
                 xPct := none, yPct := none }
        else none)) ∧
    (∀ ic, searchFlags ic = if ic then pyIGNORECASE else 0) := by
  constructor
  · unfold search_text_file
    simp only [hc, hf]
    rw [textLoop_eq]
    rfl
  · intro ic
    rfl

/-- Witness for C5: a concrete four-line file matching on lines 2 and 4. -/
theorem c5_text_handler_witness :
    search_text_file reA fsA "a.txt" "hit" 0 =
      .ok [{ path := "a.txt", sheet := none, line := some "2", column := none,
             page := none, value := "hit two", xPct := none, yPct := none },
           { path := "a.txt", sheet := none, line := some "4", column := none,
             page := none, value := "hit", xPct := none, yPct := none }] := by
  rw [(c5_text_handler reA fsA "a.txt" "hit" 0 (fun s => strIn "hit" s)
    ["one\n", "hit two\n", "three\n", "hit\n"] rfl rfl).1]
  decide

/-- C6: on a readable workbook the handler walks sheets in declared
order, rows top-to-bottom with 1-based row numbers, cells left-to-right
with 1-based column numbers; each cell is stringified (`""` for a null
cell) and tested; a match carries the sheet name in `sheet`, the row in
`line`, the column in `column` and null `page`. -/
theorem c6_excel_handler (re_ : ReCompile) (fs : FS) (fp pattern : String)
    (flags : Nat) (rx : String → Bool) (sheets : List Sheet)
    (hc : re_ pattern flags = .ok rx) (hwb : fs.workbook fp = .ok sheets) :
    search_excel_file re_ fs fp pattern flags =
      .ok (catMap (fun sh => catMap (fun r => (enumFrom 1 r.2).filterMap
        (fun c => if rx (cellStr c.2) then
          some { path := fp, sheet := some sh.name, line := some (toString r.1),
                 column := some (toString c.1), page := none,
                 value := cellStr c.2, xPct := none, yPct := none }
          else none))
        (enumFrom 1 sh.rows)) sheets) := by
  unfold search_excel_file
  simp only [hc, hwb]
  rw [sheetLoop_eq]
  rfl

/-- Witness for C6: a concrete workbook whose matches sit at sheet
"Sheet1" row 2 column 2 and row 3 column 2. -/
theorem c6_excel_handler_witness :
    search_excel_file reA fsA "b.xlsx" "hit" 0 =
      .ok [{ path := "b.xlsx", sheet := some "Sheet1", line := some "2",
             column := some "2", page := none, value := "hit",
             xPct := none, yPct := none },
           { path := "b.xlsx", sheet := some "Sheet1", line := some "3",
             column := some "2", page := none, value := "hit2",
             xPct := none, yPct := none }] := by
  rw [c6_excel_handler reA fsA "b.xlsx" "hit" 0 (fun s => strIn "hit" s) wbA rfl rfl]
  decide

theorem div_mul_hundred (a b : ℚ) : a / b * 100 = 100 * a / b := by
  ring

/-- C7: on a readable PDF every word token whose text matches yields a
match with the 1-based page number in `page`, the token's intra-page line
index in `line`, null `column`, the token text in `value`, horizontal and
vertical positions `100 * x0 / page_width` and `100 * y0 / page_height`
rounded to one decimal place, and — when an alias is supplied — the alias
as the reported source path. -/
theorem c7_pdf_handler (re_ : ReCompile) (fs : FS) (fp pattern : String)
    (flags : Nat) (al : Option String) (rx : String → Bool)
    (pages : List PdfPage)
    (hc : re_ pattern flags = .ok rx) (hpdf : fs.pdfDoc fp = .ok pages) :
    search_pdf_file re_ fs fp pattern flags al =
      .ok (catMap (fun pp => pp.2.words.filterMap (fun w =>
        if rx w.word then
          some { path := al.getD fp, sheet := none,
                 line := some (toString w.lineNo), column := none,
                 page := some (toString pp.1), value := w.word,
                 xPct := some (pyRound1 (100 * w.x0 / pp.2.width)),
                 yPct := some (pyRound1 (100 * w.y0 / pp.2.height)) }
        else none)) (enumFrom 1 pages)) := by
  unfold search_pdf_file
  simp only [hc, hpdf]
  rw [pageLoop_eq]
  simp only [mkPdfMatch, div_mul_hundred]

/-- Witness for C7: a 200×100 page with a token at the origin (positions
0.0/0.0) and one at x0 = 100, y0 = 50 (positions 50.0/50.0), searched
under an alias path. -/
theorem c7_pdf_handler_witness :
    search_pdf_file reA fsA "c.pdf" "hit" 0 (some "orig.docx") =
      .ok [{ path := "orig.docx", sheet := none, line := some "3",
             column := none, page := some "1", value := "hit",
             xPct := some 0, yPct := some 0 },
           { path := "orig.docx", sheet := none, line := some "4",
             column := none, page := some "1", value := "hit2",
             xPct := some 50, yPct := some 50 }] := by
  rw [c7_pdf_handler reA fsA "c.pdf" "hit" 0 (some "orig.docx")
    (fun s => strIn "hit" s) pagesA rfl rfl]
  norm_num [pagesA, enumFrom, catMap, List.filterMap_cons, List.filterMap_nil,
    show strIn "hit" "hit" = true from rfl, show strIn "hit" "hit2" = true from rfl,
    show toString (1 : Nat) = "1" from rfl, show toString (3 : Nat) = "3" from rfl,
    show toString (4 : Nat) = "4" from rfl,
    pyRound1, roundHalfEven, ratFloor]

/-- C3: whenever every task completes successfully, and whatever order
the workers finish in (`sched` is any completion order covering the
submitted tasks), the aggregated match list is the concatenation of the
per-target handler outputs in target-submission order, each target's
matches kept in its handler's own internal order. -/
theorem c3_aggregation_order (re_ : ReCompile) (fs : FS) (st : ServerState)
    (sid pattern : String) (ic : Bool) (paths : List String) (sched : List Nat)
    (hp : lookupA st.sessions sid = some paths)
    (hok : ∀ fp ∈ paths, ∃ ms, search_file re_ fs fp pattern (searchFlags ic) = .ok ms)
    (hs : ∀ i, i < paths.length → i ∈ sched) :
    ∃ o, search re_ fs sched st sid pattern ic = some o ∧
      o.resp = .matches
        (catMap (fun fp => okOf (search_file re_ fs fp pattern (searchFlags ic))) paths) := by
  rw [search_known re_ fs sched pattern ic hp]
  set g := fun fp => search_file re_ fs fp pattern (searchFlags ic) with hg
  set tasks := paths.map g with htasks
  have hlen : tasks.length = paths.length := List.length_map _ _
  have hix : ∀ i ∈ List.range paths.length, i ∈ sched ∧ i < tasks.length := by
    intro i hi
    have := List.mem_range.mp hi
    exact ⟨hs i this, by omega⟩
  have hok' : ∀ i ∈ List.range paths.length,
      ∃ msi, tasks.getD i (.ok []) = .ok msi := by
    intro i hi
    have hilt := List.mem_range.mp hi
    obtain ⟨fp, hfp, hgd⟩ := tasks_getD (g := g) hilt
    rw [htasks, hgd]
    exact hok fp hfp
  rw [collectFrom_complete hix hok']
  refine ⟨_, rfl, ?_⟩
  show SearchResp.matches _ = _
  congr 1
  have h1 : catMap (fun i => okOf (tasks.getD i (.ok []))) (List.range paths.length)
      = catMap (fun i => okOf (tasks.getD i (.ok []))) (List.range tasks.length) := by
    rw [hlen]
  have h2 : catMap (fun i => okOf (tasks.getD i (.ok []))) (List.range tasks.length)
      = catMap (fun t => okOf t) tasks := catMap_range_getD
  have h3 : catMap (fun t => okOf t) (paths.map g) = catMap (fun fp => okOf (g fp)) paths :=
    catMap_map paths
  rw [h1, h2, htasks, h3]

/-- Witness for C3: a two-target session collected under the reversed
completion order `[1, 0]` still aggregates in submission order. -/
theorem c3_aggregation_order_witness :
    ∃ o, search reA fsA [1, 0] ⟨[("s", ["a.txt", "c.pdf"])], []⟩ "s" "hit" false = some o ∧
      o.resp = .matches
        (catMap (fun fp => okOf (search_file reA fsA fp "hit" (searchFlags false)))
          ["a.txt", "c.pdf"]) := by
  refine c3_aggregation_order reA fsA ⟨[("s", ["a.txt", "c.pdf"])], []⟩ "s" "hit" false
    ["a.txt", "c.pdf"] [1, 0] rfl ?_ (by decide)
  intro fp hfp
  fin_cases hfp
  · exact ⟨_, rfl⟩
  · exact ⟨_, rfl⟩

/-- C9: queries only ever append to the session's store.  Running the
same query twice appends, both times, one fresh row per match with
identifiers continuing where the table left off: after the second run the
store is the original rows followed by two full duplicate copies of the
query's match rows, and its row count has grown by exactly twice the
match count. -/
theorem c9_store_append_only (re_ : ReCompile) (fs : FS) (st : ServerState)
    (sid pattern : String) (ic : Bool) (sched1 sched2 : List Nat)
    (paths : List String) (o1 o2 : SearchOutcome) (ms ms2 : List Match)
    (hp : lookupA st.sessions sid = some paths)
    (h1 : search re_ fs sched1 st sid pattern ic = some o1)
    (h1r : o1.resp = .matches ms)
    (h2 : search re_ fs sched2 o1.state sid pattern ic = some o2)
    (h2r : o2.resp = .matches ms2) :
    ms2 = ms ∧
    storeRows o1.state sid =
      storeRows st sid ++ mkRows (storeRows st sid).length pattern ms ∧
    storeRows o2.state sid =
      storeRows st sid ++ mkRows (storeRows st sid).length pattern ms
        ++ mkRows ((storeRows st sid).length + ms.length) pattern ms ∧
    (storeRows o2.state sid).length = (storeRows st sid).length + 2 * ms.length := by
  obtain ⟨hms1, hst1⟩ := search_matches hp h1 h1r
  have hsess1 : o1.state.sessions = st.sessions := by
    rw [hst1, saveAll_sessions, init_db_sessions]
  have hp2 : lookupA o1.state.sessions sid = some paths := by
    rw [hsess1]
    exact hp
  obtain ⟨hms2, hst2⟩ := search_matches hp2 h2 h2r
  have hmm : ms2 = ms := by rw [hms2, hms1]
  have hsome1 : (lookupA (init_db st sid).stores sid).isSome := init_db_isSome st sid
  have hrows1 : storeRows o1.state sid =
      storeRows st sid ++ mkRows (storeRows st sid).length pattern ms := by
    rw [hst1, saveAll_rows sid pattern ms _ hsome1, storeRows_init_db]
  have hsome2 : (lookupA o1.state.stores sid).isSome := by
    rw [hst1]
    exact saveAll_isSome sid pattern ms _ hsome1
  have hinit2 : init_db o1.state sid = o1.state := init_db_of_isSome hsome2
  have hrows2 : storeRows o2.state sid =
      storeRows o1.state sid ++ mkRows (storeRows o1.state sid).length pattern ms := by
    rw [hst2, hmm, hinit2, saveAll_rows sid pattern ms _ hsome2]
  refine ⟨hmm, hrows1, ?_, ?_⟩
  · rw [hrows2, hrows1, List.length_append, mkRows_length]
  · rw [hrows2, hrows1]
    simp only [List.length_append, mkRows_length]
    omega

/-- Witness state for the append-only claim: one session holding one
text target, no store yet. -/
def st9 : ServerState := ⟨[("s", ["a.txt"])], []⟩

/-- Fallback outcome used only to strip the `Option` from concrete
endpoint computations. -/
def outDflt : SearchOutcome := ⟨.unknownSession, st9, []⟩

/-- Outcome of the first concrete query against `st9`. -/
def o1W : SearchOutcome := (search reA fsA [0] st9 "s" "hit" false).getD outDflt

/-- Outcome of the same query run again against the resulting state. -/
def o2W : SearchOutcome := (search reA fsA [0] o1W.state "s" "hit" false).getD outDflt

/-- Witness for C9: the concrete double run doubles the row count — two
matches per run, four rows total. -/
theorem c9_store_append_only_witness :
    (storeRows o2W.state "s").length =
      (storeRows st9 "s").length +
        2 * (okOf (search_file reA fsA "a.txt" "hit" (searchFlags false))).length ∧
    (storeRows o2W.state "s").length = 4 := by
  constructor
  · exact (c9_store_append_only reA fsA st9 "s" "hit" false [0] [0] ["a.txt"]
      o1W o2W (okOf (search_file reA fsA "a.txt" "hit" (searchFlags false)))
      (okOf (search_file reA fsA "a.txt" "hit" (searchFlags false)))
      rfl rfl rfl rfl rfl).2.2.2
  · decide

/-- C10: the pattern is compiled before each handler's exception-
swallowing region, so a failing compilation makes the text, spreadsheet
and PDF handlers return the compilation error instead of an empty list,
and — as soon as the session has a target dispatched to one of those
handlers — the whole query ends in a task error rather than a match
list. -/
theorem c10_invalid_pattern (re_ : ReCompile) (fs : FS) (pattern : String)
    (e : String) :
    (∀ fp flags, re_ pattern flags = .error e →
      search_text_file re_ fs fp pattern flags = .error (.reError e)) ∧
    (∀ fp flags, re_ pattern flags = .error e →
      search_excel_file re_ fs fp pattern flags = .error (.reError e)) ∧
    (∀ fp flags al, re_ pattern flags = .error e →
      search_pdf_file re_ fs fp pattern flags al = .error (.reError e)) ∧
    (∀ sched st sid ic paths o, lookupA st.sessions sid = some paths →
      re_ pattern (searchFlags ic) = .error e →
      (∃ fp ∈ paths, classify fp = .text ∨ classify fp = .spreadsheet ∨ classify fp = .pdf) →
      search re_ fs sched st sid pattern ic = some o →
      ∃ e2, o.resp = .taskError e2) := by
  have htext : ∀ fp flags, re_ pattern flags = .error e →
      search_text_file re_ fs fp pattern flags = .error (.reError e) := by
    intro fp flags hc
    unfold search_text_file
    rw [hc]
  have hxl : ∀ fp flags, re_ pattern flags = .error e →
      search_excel_file re_ fs fp pattern flags = .error (.reError e) := by
    intro fp flags hc
    unfold search_excel_file
    rw [hc]
  have hpdf : ∀ fp flags al, re_ pattern flags = .error e →
      search_pdf_file re_ fs fp pattern flags al = .error (.reError e) := by
    intro fp flags al hc
    unfold search_pdf_file
    rw [hc]
  refine ⟨htext, hxl, hpdf, ?_⟩
  intro sched st sid ic paths o hp hc hfp hsearch
  rw [search_known re_ fs sched pattern ic hp] at hsearch
  cases hcol : collectFrom
      (mkLog (paths.map (fun fp => search_file re_ fs fp pattern (searchFlags ic))) sched)
      (List.range paths.length) with
  | none => rw [hcol] at hsearch; cases hsearch
  | some r =>
    rw [hcol] at hsearch
    cases r with
    | error e2 =>
      cases hsearch
      exact ⟨e2, rfl⟩
    | ok results =>
      exfalso
      obtain ⟨fp, hfpmem, hcl⟩ := hfp
      obtain ⟨i, hi⟩ := List.get?_of_mem hfpmem
      have hlt : i < paths.length := by
        rcases List.get?_eq_some.mp hi with ⟨h, _⟩
        exact h
      obtain ⟨msi, hmsi⟩ := collectFrom_all_ok hcol i (List.mem_range.mpr hlt)
      have htask : (paths.map (fun fp => search_file re_ fs fp pattern (searchFlags ic))).get? i
          = some (search_file re_ fs fp pattern (searchFlags ic)) := by
        rw [List.get?_map, hi]
        rfl
      rw [htask] at hmsi
      have herr : ∃ e3, search_file re_ fs fp pattern (searchFlags ic) = .error e3 := by
        rcases hcl with hcl | hcl | hcl
        · exact ⟨.reError e, by unfold search_file; rw [hcl]; exact htext fp _ hc⟩
        · exact ⟨.reError e, by unfold search_file; rw [hcl]; exact hxl fp _ hc⟩
        · exact ⟨.reError e, by unfold search_file; rw [hcl]; exact hpdf fp _ none hc⟩
      obtain ⟨e3, he3⟩ := herr
      rw [he3] at hmsi
      simp at hmsi

/-- Witness for C10: an always-failing compiler makes each handler fail
on concrete files, and a one-target text query end in a task error. -/
theorem c10_invalid_pattern_witness :
    search_text_file reBad fsA "a.txt" "(" 0 = .error (.reError "bad pattern") ∧
    search_excel_file reBad fsA "b.xlsx" "(" 0 = .error (.reError "bad pattern") ∧
    search_pdf_file reBad fsA "c.pdf" "(" 0 none = .error (.reError "bad pattern") ∧
    (∃ e2, ((search reBad fsA [0] st9 "s" "(" false).getD outDflt).resp = .taskError e2) := by
  have h := c10_invalid_pattern reBad fsA "(" "bad pattern"
  refine ⟨h.1 "a.txt" 0 rfl, h.2.1 "b.xlsx" 0 rfl, h.2.2.1 "c.pdf" 0 none rfl, ?_⟩
  exact h.2.2.2 [0] st9 "s" false ["a.txt"] _ rfl rfl
    ⟨"a.txt", by decide, Or.inl (by decide)⟩ rfl

end Dapis
